import Mathlib

/-! Verification of the k8nnon Domain reconciliation controller: a
shallow embedding of `src/controllers/domain_controller.go`.

The controller runs one reconciliation pass per trigger:
fetch the Domain, run the three DNS probes (DKIM, stats DNS, SPF),
converge the derived stats Ingress, persist the freshly computed status,
and request the next requeue delay.

The embedding models the external world (Kubernetes API server and DNS
checker) as an explicit environment: probe calls are functions of the
Domain returning `Except KErr Bool`, and each store operation can be made
to fail by an injected error.  The store itself holds the Domain at the
requested key and the Ingress at its derived key.  Durations are modelled
in seconds.
-/

/-- Kubernetes-style API errors, as distinguished by the source via
`errors.IsNotFound`. -/
inductive KErr where
  | notFound
  | alreadyExists
  | conflict
  | other (code : Nat)
deriving DecidableEq, Repr

/-- Embeds `errors.IsNotFound`. -/
def KErr.isNotFound : KErr → Bool
  | KErr.notFound => true
  | _ => false

/-- Embeds `client.IgnoreNotFound`: drop not-found errors, keep the rest. -/
def ignoreNotFound (e : KErr) : Option KErr :=
  if e.isNotFound then none else some e

/-- Embeds `v1alpha1.DNSStatus`: the three probe flags, with the source's
field spellings (`DKIN`, `Stats`, `SFP`). -/
structure DNSStatus where
  DKIN : Bool := false
  Stats : Bool := false
  SFP : Bool := false
deriving DecidableEq, Repr

/-- Embeds `v1alpha1.DomainStatus`. -/
structure DomainStatus where
  DNS : DNSStatus := {}
deriving DecidableEq, Repr

/-- Embeds `v1alpha1.DomainSpec` (only the field the controller reads). -/
structure DomainSpec where
  BaseDomain : String
deriving DecidableEq, Repr

/-- Embeds `v1alpha1.Domain`: object metadata plus spec and status. -/
structure Domain where
  Name : String
  Namespace : String
  Spec : DomainSpec
  Status : DomainStatus
deriving DecidableEq, Repr

/-- Embeds `netwrkingv1.PathType` (only the values the controller can write
or that can appear in a stored Ingress). -/
inductive PathType where
  | prefixMatch
  | exactMatch
  | implementationSpecific
deriving DecidableEq, Repr

/-- Embeds `netwrkingv1.ServiceBackendPort`. -/
structure ServiceBackendPort where
  Number : Nat
deriving DecidableEq, Repr

/-- Embeds `netwrkingv1.IngressServiceBackend`. -/
structure IngressServiceBackend where
  Name : String
  Port : ServiceBackendPort
deriving DecidableEq, Repr

/-- Embeds `netwrkingv1.IngressBackend`. -/
structure IngressBackend where
  Service : Option IngressServiceBackend
deriving DecidableEq, Repr

/-- Embeds `netwrkingv1.HTTPIngressPath`. -/
structure HTTPIngressPath where
  Path : String
  PathType : Option PathType
  Backend : IngressBackend
deriving DecidableEq, Repr

/-- Embeds `netwrkingv1.HTTPIngressRuleValue`. -/
structure HTTPIngressRuleValue where
  Paths : List HTTPIngressPath
deriving DecidableEq, Repr

/-- Embeds `netwrkingv1.IngressRule` (the `IngressRuleValue` is inlined as its
`HTTP` field, as in the wire shape). -/
structure IngressRule where
  Host : String
  HTTP : Option HTTPIngressRuleValue
deriving DecidableEq, Repr

/-- Embeds `netwrkingv1.IngressSpec` (only the `Rules` field is used). -/
structure IngressSpec where
  Rules : List IngressRule
deriving DecidableEq, Repr

/-- An owner reference as written by `ctrl.SetControllerReference`:
a back-reference to the owning object, marked as controller. -/
structure OwnerReference where
  Name : String
  Controller : Bool
deriving DecidableEq, Repr

/-- Embeds `v1.ObjectMeta` for the Ingress: name, namespace, deletion timestamp
(set by the API server once a delete is in progress) and owner
references.  The timestamp value is opaque; we model it as a `Nat`. -/
structure IngressMeta where
  Name : String
  Namespace : String
  DeletionTimestamp : Option Nat
  OwnerReferences : List OwnerReference
deriving DecidableEq, Repr

/-- Embeds `netwrkingv1.Ingress`. -/
structure Ingress where
  meta : IngressMeta
  spec : IngressSpec
deriving DecidableEq, Repr

/-- One minute, in seconds (`1 * time.Minute`). -/
def minuteSecs : Nat := 60

/-- One hour, in seconds (`1 * time.Hour`). -/
def hourSecs : Nat := 3600

/-- Embeds `ctrl.Result`: the requeue delay requested from the dispatcher.
`RequeueAfter = 0` is the zero `ctrl.Result{}` (no delay requested). -/
structure CtrlResult where
  RequeueAfter : Nat := 0
deriving DecidableEq, Repr

/-- The store visible to one reconciliation pass: the Domain at the
requested key, and the Ingress at its deterministically derived key. -/
structure Store where
  domain : Option Domain
  ingress : Option Ingress
deriving DecidableEq, Repr

/-- The external environment of a pass: the three DNS probe calls
(functions of the Domain argument, as in `checker.DNSChecker`), and an
injected error for each store operation (`none` means the operation
behaves nominally against the store). -/
structure Env where
  checkDKim : Domain → Except KErr Bool
  checkStatsDNS : Domain → Except KErr Bool
  checkSPF : Domain → Except KErr Bool
  getDomainErr : Option KErr
  getIngressErr : Option KErr
  createErr : Option KErr
  deleteErr : Option KErr
  updateErr : Option KErr
  ownerRefErr : Option KErr

/-- The probes, in the fixed order the source invokes them. -/
inductive ProbeName where
  | dkim
  | statsDNS
  | spf
deriving DecidableEq, Repr

/-- Observable side effects of one pass: which probes were invoked (in
order), which Ingresses were created and which were deleted. -/
structure Trace where
  probes : List ProbeName
  created : List Ingress
  deleted : List Ingress
deriving DecidableEq, Repr

/-- The empty trace. -/
def emptyTrace : Trace := ⟨[], [], []⟩

/-- Embeds `r.Get` on the Domain key: injected error first, otherwise read the
store (absent key gives a not-found error). -/
def getDomain (env : Env) (s : Store) : Except KErr Domain :=
  match env.getDomainErr with
  | some e => .error e
  | none =>
    match s.domain with
    | some d => .ok d
    | none => .error .notFound

/-- Embeds `r.Get` on the derived Ingress key. -/
def getIngress (env : Env) (s : Store) : Except KErr Ingress :=
  match env.getIngressErr with
  | some e => .error e
  | none =>
    match s.ingress with
    | some ing => .ok ing
    | none => .error .notFound

/-- Embeds `r.Create` on the Ingress: fails if an injected error is present or
if the object already exists; otherwise stores the object. -/
def createIngress (env : Env) (s : Store) (ing : Ingress) : Except KErr Store :=
  match env.createErr with
  | some e => .error e
  | none =>
    match s.ingress with
    | some _ => .error .alreadyExists
    | none => .ok { s with ingress := some ing }

/-- Embeds `r.Delete` on the Ingress: fails on an injected error or if already
absent; otherwise removes the object. -/
def deleteIngress (env : Env) (s : Store) : Except KErr Store :=
  match env.deleteErr with
  | some e => .error e
  | none =>
    match s.ingress with
    | some _ => .ok { s with ingress := none }
    | none => .error .notFound

/-- Embeds `r.Status().Update`: fails on an injected error (e.g. an optimistic
concurrency conflict) or if the Domain is gone; otherwise replaces the
stored Domain with the passed object. -/
def updateStatus (env : Env) (s : Store) (domain : Domain) : Except KErr Store :=
  match env.updateErr with
  | some e => .error e
  | none =>
    match s.domain with
    | some _ => .ok { s with domain := some domain }
    | none => .error .notFound

/-- Embeds `statsIngressName`: `fmt.Sprintf("%s-stats", domain.Name)`. -/
def statsIngressName (domain : Domain) : String :=
  domain.Name ++ "-stats"

/-- Embeds `ctrl.SetControllerReference`: record the owner back-reference on the
Ingress; may fail (scheme lookup), modelled by the injected error. -/
def setControllerReference (env : Env) (domain : Domain) (ing : Ingress) :
    Except KErr Ingress :=
  match env.ownerRefErr with
  | some e => .error e
  | none =>
    .ok { ing with meta :=
      { ing.meta with OwnerReferences := [⟨domain.Name, true⟩] } }

/-- Embeds `buildDesiredIngress`: the canonical derived Ingress — name
`<domain>-stats` in the Domain's namespace, one rule routing the base
domain's `/` (prefix match) to service `k8nnon` port 80, owned by the
Domain. -/
def buildDesiredIngress (env : Env) (domain : Domain) : Except KErr Ingress :=
  let name := statsIngressName domain
  let ing : Ingress :=
    { meta :=
        { Name := name
          Namespace := domain.Namespace
          DeletionTimestamp := none
          OwnerReferences := [] }
      spec :=
        { Rules :=
            [ { Host := domain.Spec.BaseDomain
                HTTP := some
                  { Paths :=
                      [ { Path := "/"
                          PathType := some .prefixMatch
                          Backend :=
                            { Service := some
                                { Name := "k8nnon"
                                  Port := { Number := 80 } } } } ] } } ] } }
  setControllerReference env domain ing

/-- Embeds `checkDomainDNS`: run the three probes in order DKIM → stats DNS →
SPF, aborting on the first error; also report which probes were invoked. -/
def checkDomainDNS (env : Env) (domain : Domain) :
    Except KErr DNSStatus × List ProbeName :=
  match env.checkDKim domain with
  | .error e => (.error e, [.dkim])
  | .ok dkin =>
    match env.checkStatsDNS domain with
    | .error e => (.error e, [.dkim, .statsDNS])
    | .ok stats =>
      match env.checkSPF domain with
      | .error e => (.error e, [.dkim, .statsDNS, .spf])
      | .ok sfp => (.ok { DKIN := dkin, Stats := stats, SFP := sfp },
                    [.dkim, .statsDNS, .spf])

/-- Embeds `handleFoundIngress`: on a found Ingress, no-op if the stats flag is
true; otherwise delete it unless a deletion is already in progress. -/
def handleFoundIngress (env : Env) (s : Store) (ing : Ingress)
    (domain : Domain) : Except KErr (Store × Trace) :=
  if domain.Status.DNS.Stats then
    .ok (s, emptyTrace)
  else if ing.meta.DeletionTimestamp = none then
    match deleteIngress env s with
    | .error e => .error e
    | .ok s' => .ok (s', ⟨[], [], [ing]⟩)
  else
    .ok (s, emptyTrace)

/-- Embeds `reconcileIngress`: enforce the existence of the derived Ingress
against the freshly computed stats flag. -/
def reconcileIngress (env : Env) (s : Store) (domain : Domain) :
    Except KErr (Store × Trace) :=
  match getIngress env s with
  | .ok ing => handleFoundIngress env s ing domain
  | .error e =>
    if ¬ e.isNotFound then .error e
    else if ¬ domain.Status.DNS.Stats then .ok (s, emptyTrace)
    else
      match buildDesiredIngress env domain with
      | .error e => .error e
      | .ok ing =>
        match createIngress env s ing with
        | .error e => .error e
        | .ok s' => .ok (s', ⟨[], [ing], []⟩)

/-- Embeds `computeReconcileInterval`: one hour when all three flags are true,
one minute otherwise. -/
def computeReconcileInterval (domain : Domain) : Nat :=
  if domain.Status.DNS.Stats && domain.Status.DNS.SFP && domain.Status.DNS.DKIN
  then hourSecs
  else minuteSecs

/-- The full outcome of one pass: resulting store, observable trace,
returned `ctrl.Result` and returned error. -/
structure PassResult where
  store : Store
  trace : Trace
  result : CtrlResult
  err : Option KErr
deriving DecidableEq, Repr

/-- The tail of the pass after the status re-assignment
`domain.Status = corev1alpha1.DomainStatus{DNS: dnsStatus}` (lines
78–90 of the source): converge the Ingress, persist the status, and
schedule the next trigger. -/
def reconcileTail (env : Env) (s : Store) (domain : Domain)
    (ps : List ProbeName) : PassResult :=
  match reconcileIngress env s domain with
  | .error e =>
    { store := s, trace := ⟨ps, [], []⟩, result := {}, err := some e }
  | .ok (s1, tr) =>
    match updateStatus env s1 domain with
    | .error e =>
      { store := s1, trace := ⟨ps, tr.created, tr.deleted⟩,
        result := {}, err := some e }
    | .ok s2 =>
      { store := s2, trace := ⟨ps, tr.created, tr.deleted⟩,
        result := { RequeueAfter := computeReconcileInterval domain },
        err := none }

/-- Embeds `Reconcile`: one reconciliation pass — fetch the Domain (not-found
means clean exit), probe DNS (error means one-minute retry), replace the
whole in-memory status with the fresh flags, then run the tail. -/
def Reconcile (env : Env) (s : Store) : PassResult :=
  match getDomain env s with
  | .error e =>
    { store := s, trace := emptyTrace, result := {}, err := ignoreNotFound e }
  | .ok domain0 =>
    match checkDomainDNS env domain0 with
    | (.error e, ps) =>
      { store := s, trace := ⟨ps, [], []⟩,
        result := { RequeueAfter := minuteSecs }, err := some e }
    | (.ok dnsStatus, ps) =>
      reconcileTail env s { domain0 with Status := { DNS := dnsStatus } } ps

/-! ## Shared concrete objects and helper lemmas -/

/-- A sample Domain, as in the spec's scenario. -/
def sampleDomain : Domain :=
  { Name := "acme", Namespace := "default",
    Spec := { BaseDomain := "mail.acme.com" }, Status := {} }

/-- A fault-free environment whose probes return the given constant
answers. -/
def okEnv (dk st sp : Bool) : Env :=
  { checkDKim := fun _ => Except.ok dk
    checkStatsDNS := fun _ => Except.ok st
    checkSPF := fun _ => Except.ok sp
    getDomainErr := none
    getIngressErr := none
    createErr := none
    deleteErr := none
    updateErr := none
    ownerRefErr := none }

/-- The Derived Resource wire shape as the spec states it: name
`<domain>-stats`, the Domain's namespace, a single rule with host the
Domain's base domain, path `/` with prefix match, the fixed backend
service `k8nnon` on port 80, and an owner (controller) reference to the
parent Domain.  Written from the spec's words, to be compared with
`buildDesiredIngress`. -/
def specCanonicalIngress (d : Domain) : Ingress :=
  { meta :=
      { Name := d.Name ++ "-stats"
        Namespace := d.Namespace
        DeletionTimestamp := none
        OwnerReferences := [{ Name := d.Name, Controller := true }] }
    spec :=
      { Rules :=
          [ { Host := d.Spec.BaseDomain
              HTTP := some
                { Paths :=
                    [ { Path := "/"
                        PathType := some PathType.prefixMatch
                        Backend :=
                          { Service := some
                              { Name := "k8nnon"
                                Port := { Number := 80 } } } } ] } } ] } }

/-- A successful `updateStatus` stores exactly the passed Domain. -/
theorem updateStatus_ok_domain {env : Env} {s : Store} {d : Domain}
    {s2 : Store} (h : updateStatus env s d = Except.ok s2) :
    s2.domain = some d := by
  unfold updateStatus at h
  split at h
  · exact absurd h (by simp)
  · split at h
    · cases h; rfl
    · exact absurd h (by simp)

/-- Lemma: `updateStatus` never touches the Ingress slot. -/
theorem updateStatus_ok_ingress {env : Env} {s : Store} {d : Domain}
    {s2 : Store} (h : updateStatus env s d = Except.ok s2) :
    s2.ingress = s.ingress := by
  unfold updateStatus at h
  split at h
  · exact absurd h (by simp)
  · split at h
    · cases h; rfl
    · exact absurd h (by simp)

/-- A successful `deleteIngress` never touches the Domain slot. -/
theorem deleteIngress_ok_domain {env : Env} {s s' : Store}
    (h : deleteIngress env s = Except.ok s') : s'.domain = s.domain := by
  unfold deleteIngress at h
  split at h
  · exact absurd h (by simp)
  · split at h
    · cases h; rfl
    · exact absurd h (by simp)

/-- A successful `createIngress` never touches the Domain slot. -/
theorem createIngress_ok_domain {env : Env} {s : Store} {ing : Ingress}
    {s' : Store} (h : createIngress env s ing = Except.ok s') :
    s'.domain = s.domain := by
  unfold createIngress at h
  split at h
  · exact absurd h (by simp)
  · split at h
    · exact absurd h (by simp)
    · cases h; rfl

/-- Lemma: `reconcileIngress` never touches the Domain slot of the store. -/
theorem reconcileIngress_domain_eq {env : Env} {s : Store} {d : Domain}
    {s1 : Store} {tr : Trace}
    (h : reconcileIngress env s d = Except.ok (s1, tr)) :
    s1.domain = s.domain := by
  unfold reconcileIngress at h
  split at h
  · unfold handleFoundIngress at h
    split at h
    · cases h; rfl
    · split at h
      · split at h
        · exact absurd h (by simp)
        · rename_i s' heq
          cases h
          exact deleteIngress_ok_domain heq
      · cases h; rfl
  · split at h
    · exact absurd h (by simp)
    · split at h
      · cases h; rfl
      · split at h
        · exact absurd h (by simp)
        · split at h
          · exact absurd h (by simp)
          · rename_i s' heq
            cases h
            exact createIngress_ok_domain heq

/-! ## Claims -/

/-- Claim C2: the reconcile-interval policy is a pure two-tier function
of the three status flags — exactly one hour iff all of DKIM, stats DNS
and SPF are true, and exactly one minute in every other combination. -/
theorem c2_interval_two_tier (d : Domain) :
    (computeReconcileInterval d = hourSecs ↔
      d.Status.DNS.DKIN = true ∧ d.Status.DNS.Stats = true ∧
        d.Status.DNS.SFP = true) ∧
    (computeReconcileInterval d = minuteSecs ↔
      ¬(d.Status.DNS.DKIN = true ∧ d.Status.DNS.Stats = true ∧
        d.Status.DNS.SFP = true)) := by
  obtain ⟨_, _, _, ⟨⟨dk, st, sp⟩⟩⟩ := d
  cases dk <;> cases st <;> cases sp <;>
    simp [computeReconcileInterval, hourSecs, minuteSecs]

/-- Claim C9: when the owner reference can be set, `buildDesiredIngress`
produces exactly the canonical derived Ingress of the spec: name
`<domain>-stats`, the Domain's namespace, one rule host = base domain,
path `/` prefix match, fixed backend `k8nnon`:80, owner reference to the
Domain. -/
theorem c9_canonical_ingress (env : Env) (d : Domain)
    (h : env.ownerRefErr = none) :
    buildDesiredIngress env d = Except.ok (specCanonicalIngress d) := by
  simp [buildDesiredIngress, setControllerReference, specCanonicalIngress,
    statsIngressName, h]

/-- Claim C9 witness at a concrete Domain. -/
theorem c9_canonical_ingress_witness :
    buildDesiredIngress (okEnv true true true) sampleDomain =
      Except.ok (specCanonicalIngress sampleDomain) :=
  c9_canonical_ingress (okEnv true true true) sampleDomain rfl

/-- Claim C8: a fetch error ends the pass with the store untouched, no
probe invoked and no mutation; a not-found fetch is a clean (error-free)
exit and any other fetch error is returned to the caller. -/
theorem c8_fetch_error_clean (env : Env) (s : Store) (e : KErr)
    (h : getDomain env s = Except.error e) :
    Reconcile env s =
      { store := s, trace := emptyTrace, result := {},
        err := if e.isNotFound then none else some e } := by
  simp [Reconcile, h, ignoreNotFound]

/-- Claim C8 witness: domain absent in the store, clean exit. -/
theorem c8_fetch_error_clean_witness :
    Reconcile (okEnv true true true) { domain := none, ingress := none } =
      { store := { domain := none, ingress := none }, trace := emptyTrace,
        result := {},
        err := if KErr.notFound.isNotFound then none else some KErr.notFound } :=
  c8_fetch_error_clean (okEnv true true true)
    { domain := none, ingress := none } KErr.notFound rfl

/-- The tail of a pass either returns no error or leaves the stored
Domain (and hence its status) untouched. -/
theorem reconcileTail_err_domain_unchanged (env : Env) (s : Store)
    (d : Domain) (ps : List ProbeName) :
    (reconcileTail env s d ps).err = none ∨
      (reconcileTail env s d ps).store.domain = s.domain := by
  unfold reconcileTail
  split
  · right; rfl
  · rename_i s1 tr heq
    split
    · right
      exact reconcileIngress_domain_eq heq
    · left; rfl

/-- Every pass either returns no error or leaves the stored Domain (and
hence its status) untouched. -/
theorem reconcile_err_domain_unchanged (env : Env) (s : Store) :
    (Reconcile env s).err = none ∨
      (Reconcile env s).store.domain = s.domain := by
  unfold Reconcile
  split
  · right; rfl
  · split
    · right; rfl
    · exact reconcileTail_err_domain_unchanged env s _ _

/-- Claim C3: a probe error aborts the pass before persisting — probes
later in the fixed sequence DKIM → stats DNS → SPF are not invoked, the
store (status and Ingress) is untouched, and the probe error is returned
together with a one-minute retry delay. -/
theorem c3_probe_error_aborts (env : Env) (s : Store) (d : Domain)
    (e : KErr) (hd : getDomain env s = Except.ok d) :
    (env.checkDKim d = Except.error e →
      Reconcile env s =
        { store := s, trace := ⟨[ProbeName.dkim], [], []⟩,
          result := { RequeueAfter := minuteSecs }, err := some e }) ∧
    (∀ b1, env.checkDKim d = Except.ok b1 →
      env.checkStatsDNS d = Except.error e →
      Reconcile env s =
        { store := s, trace := ⟨[ProbeName.dkim, ProbeName.statsDNS], [], []⟩,
          result := { RequeueAfter := minuteSecs }, err := some e }) ∧
    (∀ b1 b2, env.checkDKim d = Except.ok b1 →
      env.checkStatsDNS d = Except.ok b2 →
      env.checkSPF d = Except.error e →
      Reconcile env s =
        { store := s,
          trace := ⟨[ProbeName.dkim, ProbeName.statsDNS, ProbeName.spf], [], []⟩,
          result := { RequeueAfter := minuteSecs }, err := some e }) := by
  refine ⟨fun h1 => ?_, fun b1 h1 h2 => ?_, fun b1 b2 h1 h2 h3 => ?_⟩
  · simp [Reconcile, checkDomainDNS, hd, h1]
  · simp [Reconcile, checkDomainDNS, hd, h1, h2]
  · simp [Reconcile, checkDomainDNS, hd, h1, h2, h3]

/-- An environment whose stats-DNS probe fails. -/
def probeErrEnv : Env :=
  { okEnv true true true with checkStatsDNS := fun _ => Except.error (KErr.other 7) }

/-- Claim C3 witness: the stats-DNS probe fails on a stored Domain; the
SPF probe is not invoked and the pass aborts with a one-minute delay. -/
theorem c3_probe_error_aborts_witness :
    Reconcile probeErrEnv { domain := some sampleDomain, ingress := none } =
      { store := { domain := some sampleDomain, ingress := none },
        trace := ⟨[ProbeName.dkim, ProbeName.statsDNS], [], []⟩,
        result := { RequeueAfter := minuteSecs }, err := some (KErr.other 7) } :=
  (c3_probe_error_aborts probeErrEnv
    { domain := some sampleDomain, ingress := none } sampleDomain
    (KErr.other 7) rfl).2.1 true rfl rfl

/-- A successful tail persists exactly the Domain object it was handed. -/
theorem reconcileTail_ok_domain {env : Env} {s : Store} {d : Domain}
    {ps : List ProbeName}
    (hok : (reconcileTail env s d ps).err = none) :
    (reconcileTail env s d ps).store.domain = some d := by
  unfold reconcileTail at hok ⊢
  cases hri : reconcileIngress env s d with
  | error e => simp [hri] at hok
  | ok p =>
    obtain ⟨s1, tr⟩ := p
    simp only [hri] at hok ⊢
    cases hu : updateStatus env s1 d with
    | error e => simp [hu] at hok
    | ok s2 =>
      simp only [hu]
      exact updateStatus_ok_domain hu

/-- Claim C5: on a successful pass the persisted status is exactly the
three freshly probed flags, replacing the whole previous status value;
and a pass that returns an error never changes the stored Domain, so no
stale or partial status can persist across an aborted pass. -/
theorem c5_status_full_replace (env : Env) (s : Store) (d : Domain)
    (dk st sp : Bool) (hd : getDomain env s = Except.ok d)
    (hdk : env.checkDKim d = Except.ok dk)
    (hst : env.checkStatsDNS d = Except.ok st)
    (hsp : env.checkSPF d = Except.ok sp)
    (hok : (Reconcile env s).err = none) :
    ((Reconcile env s).store.domain =
      some { d with Status := { DNS := { DKIN := dk, Stats := st, SFP := sp } } }) ∧
    (∀ env2 s2, (Reconcile env2 s2).err ≠ none →
      (Reconcile env2 s2).store.domain = s2.domain) := by
  constructor
  · have hR : Reconcile env s =
        reconcileTail env s
          { d with Status := { DNS := { DKIN := dk, Stats := st, SFP := sp } } }
          [ProbeName.dkim, ProbeName.statsDNS, ProbeName.spf] := by
      simp [Reconcile, checkDomainDNS, hd, hdk, hst, hsp]
    rw [hR] at hok ⊢
    exact reconcileTail_ok_domain hok
  · intro env2 s2 h2
    exact (reconcile_err_domain_unchanged env2 s2).resolve_left h2

/-- Claim C5 witness: probes return `{true, false, true}`; the persisted
status is exactly that value. -/
theorem c5_status_full_replace_witness :
    (Reconcile (okEnv true false true)
        { domain := some sampleDomain, ingress := none }).store.domain =
      some { sampleDomain with
              Status := { DNS := { DKIN := true, Stats := false, SFP := true } } } :=
  (c5_status_full_replace (okEnv true false true)
    { domain := some sampleDomain, ingress := none } sampleDomain
    true false true rfl rfl rfl rfl rfl).1

/-- A successful `deleteIngress` leaves the Ingress slot empty. -/
theorem deleteIngress_ok_ingress {env : Env} {s s' : Store}
    (h : deleteIngress env s = Except.ok s') : s'.ingress = none := by
  unfold deleteIngress at h
  split at h
  · exact absurd h (by simp)
  · split at h
    · cases h; rfl
    · exact absurd h (by simp)

/-- A successful `createIngress` stores the built Ingress. -/
theorem createIngress_ok_ingress {env : Env} {s : Store} {ing : Ingress}
    {s' : Store} (h : createIngress env s ing = Except.ok s') :
    s'.ingress = some ing := by
  unfold createIngress at h
  split at h
  · exact absurd h (by simp)
  · split at h
    · exact absurd h (by simp)
    · cases h; rfl

/-- After a successful `reconcileIngress` against a truthful Ingress
read, the Ingress slot agrees with the stats flag: present when the flag
is true; when the flag is false it is absent unless its deletion was
already in progress. -/
theorem reconcileIngress_ok_ingress {env : Env} {s : Store} {d : Domain}
    {s1 : Store} {tr : Trace} (hgi : env.getIngressErr = none)
    (h : reconcileIngress env s d = Except.ok (s1, tr)) :
    (d.Status.DNS.Stats = true → (s1.ingress).isSome = true) ∧
    (d.Status.DNS.Stats = false → s1.ingress = none ∨
      ∃ ing, s1.ingress = some ing ∧ ing.meta.DeletionTimestamp ≠ none) := by
  unfold reconcileIngress getIngress at h
  cases hsi : s.ingress with
  | some ing =>
    simp only [hgi, hsi] at h
    unfold handleFoundIngress at h
    cases hstat : d.Status.DNS.Stats with
    | true =>
      simp only [hstat, if_true] at h
      cases h
      refine ⟨fun _ => ?_, fun hf => absurd hf (by simp)⟩
      simp [hsi]
    | false =>
      simp only [hstat, Bool.false_eq_true, if_false] at h
      cases hdt : ing.meta.DeletionTimestamp with
      | none =>
        simp only [hdt, if_pos rfl] at h
        cases hdel : deleteIngress env s with
        | error e => simp [hdel] at h
        | ok s' =>
          simp only [hdel] at h
          cases h
          exact ⟨fun ht => absurd ht (by simp),
            fun _ => Or.inl (deleteIngress_ok_ingress hdel)⟩
      | some t =>
        simp only [hdt] at h
        simp at h
        obtain ⟨hs1, htr⟩ := h
        refine ⟨fun ht => absurd ht (by simp), fun _ => Or.inr ?_⟩
        refine ⟨ing, ?_, by simp [hdt]⟩
        rw [← hs1]
        exact hsi
  | none =>
    simp only [hgi, hsi, KErr.isNotFound] at h
    cases hstat : d.Status.DNS.Stats with
    | false =>
      simp only [hstat] at h
      simp at h
      obtain ⟨hs1, htr⟩ := h
      refine ⟨fun ht => absurd ht (by simp), fun _ => Or.inl ?_⟩
      rw [← hs1]
      exact hsi
    | true =>
      simp only [hstat] at h
      simp at h
      cases hb : buildDesiredIngress env d with
      | error e => simp [hb] at h
      | ok ing =>
        simp only [hb] at h
        cases hc : createIngress env s ing with
        | error e => simp [hc] at h
        | ok s' =>
          simp only [hc] at h
          simp at h
          obtain ⟨hs1, htr⟩ := h
          refine ⟨fun _ => ?_, fun hf => absurd hf (by simp)⟩
          rw [← hs1, createIngress_ok_ingress hc]
          rfl

/-- A successful tail leaves the Ingress slot agreeing with the stats
flag of the Domain it was handed (when the Ingress read is truthful). -/
theorem reconcileTail_ok_ingress {env : Env} {s : Store} {d : Domain}
    {ps : List ProbeName} (hgi : env.getIngressErr = none)
    (hok : (reconcileTail env s d ps).err = none) :
    (d.Status.DNS.Stats = true →
      ((reconcileTail env s d ps).store.ingress).isSome = true) ∧
    (d.Status.DNS.Stats = false →
      (reconcileTail env s d ps).store.ingress = none ∨
      ∃ ing, (reconcileTail env s d ps).store.ingress = some ing ∧
        ing.meta.DeletionTimestamp ≠ none) := by
  unfold reconcileTail at hok ⊢
  cases hri : reconcileIngress env s d with
  | error e => simp [hri] at hok
  | ok p =>
    obtain ⟨s1, tr⟩ := p
    simp only [hri] at hok ⊢
    cases hu : updateStatus env s1 d with
    | error e => simp [hu] at hok
    | ok s2 =>
      simp only [hu]
      have hing : s2.ingress = s1.ingress := updateStatus_ok_ingress hu
      have hmain := reconcileIngress_ok_ingress hgi hri
      constructor
      · intro ht
        simpa [hing] using hmain.1 ht
      · intro hf
        simpa [hing] using hmain.2 hf

/-- Claim C1 (amended): after a successful pass over an existing Domain
with a truthful Ingress read, if the stats-DNS probe of that pass
returned true the derived Ingress exists; if it returned false the
Ingress is absent — unless its deletion was already in progress (non-nil
deletion timestamp), in which case it is left alone and may still be
present at the end of the pass. -/
theorem c1_exists_invariant_amended (env : Env) (s : Store) (d : Domain)
    (st : Bool)
    (hd : getDomain env s = Except.ok d)
    (hgi : env.getIngressErr = none)
    (hst : env.checkStatsDNS d = Except.ok st)
    (hok : (Reconcile env s).err = none) :
    (st = true → ((Reconcile env s).store.ingress).isSome = true) ∧
    (st = false → (Reconcile env s).store.ingress = none ∨
      ∃ ing, (Reconcile env s).store.ingress = some ing ∧
        ing.meta.DeletionTimestamp ≠ none) := by
  cases hdk : env.checkDKim d with
  | error e =>
    have hbad : Reconcile env s =
        { store := s, trace := ⟨[ProbeName.dkim], [], []⟩,
          result := { RequeueAfter := minuteSecs }, err := some e } := by
      simp [Reconcile, checkDomainDNS, hd, hdk]
    rw [hbad] at hok
    exact absurd hok (by simp)
  | ok dk =>
    cases hsp : env.checkSPF d with
    | error e =>
      have hbad : Reconcile env s =
          { store := s,
            trace := ⟨[ProbeName.dkim, ProbeName.statsDNS, ProbeName.spf], [], []⟩,
            result := { RequeueAfter := minuteSecs }, err := some e } := by
        simp [Reconcile, checkDomainDNS, hd, hdk, hst, hsp]
      rw [hbad] at hok
      exact absurd hok (by simp)
    | ok sp =>
      have hR : Reconcile env s =
          reconcileTail env s
            { d with Status := { DNS := { DKIN := dk, Stats := st, SFP := sp } } }
            [ProbeName.dkim, ProbeName.statsDNS, ProbeName.spf] := by
        simp [Reconcile, checkDomainDNS, hd, hdk, hst, hsp]
      rw [hR] at hok ⊢
      exact reconcileTail_ok_ingress hgi hok

/-- Claim C1 amended witness: stats probe true, Ingress absent — it
exists after the pass. -/
theorem c1_exists_invariant_amended_witness :
    ((Reconcile (okEnv true true true)
      { domain := some sampleDomain, ingress := none }).store.ingress).isSome = true :=
  (c1_exists_invariant_amended (okEnv true true true)
    { domain := some sampleDomain, ingress := none } sampleDomain true
    rfl rfl rfl rfl).1 rfl

/-- An Ingress whose deletion is already in progress (non-nil deletion
timestamp). -/
def deletingIngress : Ingress :=
  { meta := { Name := "acme-stats", Namespace := "default",
              DeletionTimestamp := some 1,
              OwnerReferences := [{ Name := "acme", Controller := true }] }
    spec := { Rules := [] } }

/-- Claim C1 counterexample: the stats-DNS probe of the pass returns
false and the pass completes successfully, yet the derived Ingress still
exists afterwards (its deletion was already in progress, so the pass
left it alone) — refuting the strict exists-iff-flag claim. -/
theorem c1_counterexample :
    ((okEnv true false true).checkStatsDNS sampleDomain = Except.ok false) ∧
    ((Reconcile (okEnv true false true)
        { domain := some sampleDomain, ingress := some deletingIngress }).err = none) ∧
    ((Reconcile (okEnv true false true)
        { domain := some sampleDomain, ingress := some deletingIngress }).store.ingress =
      some deletingIngress) :=
  ⟨rfl, rfl, rfl⟩

/-- An environment whose delete reports not-found: the object vanished
between the read and the delete. -/
def deleteNotFoundEnv : Env :=
  { okEnv true false true with deleteErr := some KErr.notFound }

/-- Claim C6 (amended): `handleFoundIngress` propagates every delete
error unchanged — a not-found on delete included; no delete error is
treated as success. -/
theorem c6_delete_error_propagates (env : Env) (s : Store) (d : Domain)
    (ing : Ingress) (e : KErr)
    (hstats : d.Status.DNS.Stats = false)
    (hdt : ing.meta.DeletionTimestamp = none)
    (hdel : deleteIngress env s = Except.error e) :
    handleFoundIngress env s ing d = Except.error e := by
  simp [handleFoundIngress, hstats, hdt, hdel]

/-- Claim C6 amended witness: a not-found delete error surfaces from
`handleFoundIngress` unchanged. -/
theorem c6_delete_error_propagates_witness :
    handleFoundIngress deleteNotFoundEnv
      { domain := some sampleDomain,
        ingress := some (specCanonicalIngress sampleDomain) }
      (specCanonicalIngress sampleDomain) sampleDomain =
      Except.error KErr.notFound :=
  c6_delete_error_propagates deleteNotFoundEnv
    { domain := some sampleDomain,
      ingress := some (specCanonicalIngress sampleDomain) }
    sampleDomain (specCanonicalIngress sampleDomain) KErr.notFound
    rfl rfl rfl

/-- Claim C6 counterexample: with the stats flag false and a found
Ingress, a delete reporting not-found is not swallowed — the whole pass
fails with exactly that not-found error, contradicting
"treated as success". -/
theorem c6_counterexample :
    (Reconcile deleteNotFoundEnv
        { domain := some sampleDomain,
          ingress := some (specCanonicalIngress sampleDomain) }).err =
      some KErr.notFound :=
  rfl

/-- A failing tail (Ingress convergence or status update) requests no
requeue delay: the returned `ctrl.Result` is the zero value. -/
theorem reconcileTail_err_requeue {env : Env} {s : Store} {d : Domain}
    {ps : List ProbeName}
    (h : (reconcileTail env s d ps).err ≠ none) :
    (reconcileTail env s d ps).result.RequeueAfter = 0 := by
  unfold reconcileTail at h ⊢
  cases hri : reconcileIngress env s d with
  | error e => simp [hri]
  | ok p =>
    obtain ⟨s1, tr⟩ := p
    simp only [hri] at h ⊢
    cases hu : updateStatus env s1 d with
    | error e => simp [hu]
    | ok s2 => simp [hu] at h

/-- A successful tail requests exactly the policy-computed interval for
the Domain it persisted. -/
theorem reconcileTail_ok_requeue {env : Env} {s : Store} {d : Domain}
    {ps : List ProbeName}
    (hok : (reconcileTail env s d ps).err = none) :
    (reconcileTail env s d ps).result.RequeueAfter =
      computeReconcileInterval d := by
  unfold reconcileTail at hok ⊢
  cases hri : reconcileIngress env s d with
  | error e => simp [hri] at hok
  | ok p =>
    obtain ⟨s1, tr⟩ := p
    simp only [hri] at hok ⊢
    cases hu : updateStatus env s1 d with
    | error e => simp [hu] at hok
    | ok s2 => simp [hu]

/-- Claim C7 (amended): per pass over an existing Domain, the output is
either an error or success — probe-stage errors carry the one-minute
retry delay, but Ingress-reconcile and status-update errors are returned
with a zero requested delay, and success carries the policy-computed
interval for the persisted Domain. -/
theorem c7_output_signal (env : Env) (s : Store) (d : Domain)
    (hd : getDomain env s = Except.ok d) :
    (∀ e ps, checkDomainDNS env d = (Except.error e, ps) →
      (Reconcile env s).err = some e ∧
      (Reconcile env s).result.RequeueAfter = minuteSecs) ∧
    (∀ dns ps, checkDomainDNS env d = (Except.ok dns, ps) →
      (Reconcile env s).err ≠ none →
      (Reconcile env s).result.RequeueAfter = 0) ∧
    ((Reconcile env s).err = none →
      ∃ d2, (Reconcile env s).store.domain = some d2 ∧
        (Reconcile env s).result.RequeueAfter = computeReconcileInterval d2) := by
  refine ⟨?_, ?_, ?_⟩
  · intro e ps h
    constructor <;> simp [Reconcile, hd, h]
  · intro dns ps h hne
    have hR : Reconcile env s =
        reconcileTail env s { d with Status := { DNS := dns } } ps := by
      simp [Reconcile, hd, h]
    rw [hR] at hne ⊢
    exact reconcileTail_err_requeue hne
  · intro hok
    rcases hc : checkDomainDNS env d with ⟨res, ps⟩
    cases res with
    | error e =>
      have hbad : Reconcile env s =
          { store := s, trace := ⟨ps, [], []⟩,
            result := { RequeueAfter := minuteSecs }, err := some e } := by
        simp [Reconcile, hd, hc]
      rw [hbad] at hok
      exact absurd hok (by simp)
    | ok dns =>
      have hR : Reconcile env s =
          reconcileTail env s { d with Status := { DNS := dns } } ps := by
        simp [Reconcile, hd, hc]
      rw [hR] at hok ⊢
      exact ⟨_, reconcileTail_ok_domain hok, reconcileTail_ok_requeue hok⟩

/-- Claim C7 amended witness: all probes true on a clean store — the
pass succeeds and requests the policy interval for the stored Domain. -/
theorem c7_output_signal_witness :
    ∃ d2, (Reconcile (okEnv true true true)
        { domain := some sampleDomain, ingress := none }).store.domain = some d2 ∧
      (Reconcile (okEnv true true true)
        { domain := some sampleDomain, ingress := none }).result.RequeueAfter =
        computeReconcileInterval d2 :=
  (c7_output_signal (okEnv true true true)
    { domain := some sampleDomain, ingress := none } sampleDomain rfl).2.2 rfl

/-- An environment whose create fails with a conflict. -/
def createConflictEnv : Env :=
  { okEnv true true true with createErr := some KErr.conflict }

/-- Claim C7 counterexample: a derived-resource create failure returns
the error with a zero requested delay — not the short retry delay the
claim promises for every error (`minuteSecs = 60 ≠ 0`). -/
theorem c7_counterexample :
    ((Reconcile createConflictEnv
        { domain := some sampleDomain, ingress := none }).err =
      some KErr.conflict) ∧
    ((Reconcile createConflictEnv
        { domain := some sampleDomain, ingress := none }).result.RequeueAfter = 0) ∧
    (0 : Nat) ≠ minuteSecs := by
  refine ⟨rfl, rfl, by decide⟩

/-- Claim C4: with the store behaving nominally and probes that depend
only on the Domain spec, running a pass immediately after a successful
pass produces no further mutation: the second pass succeeds, creates
nothing, deletes nothing, and leaves the store (including the persisted
status value) exactly as the first pass left it. -/
theorem c4_idempotent (env : Env) (s : Store)
    (hgd : env.getDomainErr = none) (hgi : env.getIngressErr = none)
    (hce : env.createErr = none) (hde : env.deleteErr = none)
    (hue : env.updateErr = none) (hor : env.ownerRefErr = none)
    (hdkc : ∀ x y : Domain, x.Spec = y.Spec → env.checkDKim x = env.checkDKim y)
    (hstc : ∀ x y : Domain, x.Spec = y.Spec → env.checkStatsDNS x = env.checkStatsDNS y)
    (hspc : ∀ x y : Domain, x.Spec = y.Spec → env.checkSPF x = env.checkSPF y)
    (h1 : (Reconcile env s).err = none) :
    (Reconcile env (Reconcile env s).store).err = none ∧
    (Reconcile env (Reconcile env s).store).trace.created = [] ∧
    (Reconcile env (Reconcile env s).store).trace.deleted = [] ∧
    (Reconcile env (Reconcile env s).store).store = (Reconcile env s).store := by
  cases hsd : s.domain with
  | none =>
    have hR : Reconcile env s =
        { store := s, trace := emptyTrace, result := {}, err := none } := by
      simp [Reconcile, getDomain, hgd, hsd, ignoreNotFound, KErr.isNotFound]
    simp [hR, emptyTrace]
  | some d =>
    cases hcd : env.checkDKim d with
    | error e =>
      have hbad : (Reconcile env s).err = some e := by
        simp [Reconcile, getDomain, checkDomainDNS, hgd, hsd, hcd]
      rw [hbad] at h1
      exact absurd h1 (by simp)
    | ok dk =>
      cases hcs : env.checkStatsDNS d with
      | error e =>
        have hbad : (Reconcile env s).err = some e := by
          simp [Reconcile, getDomain, checkDomainDNS, hgd, hsd, hcd, hcs]
        rw [hbad] at h1
        exact absurd h1 (by simp)
      | ok st =>
        cases hcp : env.checkSPF d with
        | error e =>
          have hbad : (Reconcile env s).err = some e := by
            simp [Reconcile, getDomain, checkDomainDNS, hgd, hsd, hcd, hcs, hcp]
          rw [hbad] at h1
          exact absurd h1 (by simp)
        | ok sp =>
          have hd2 : env.checkDKim
              { d with Status := { DNS := { DKIN := dk, Stats := st, SFP := sp } } } =
              Except.ok dk :=
            (hdkc { d with
              Status := { DNS := { DKIN := dk, Stats := st, SFP := sp } } } d rfl).trans hcd
          have hs2 : env.checkStatsDNS
              { d with Status := { DNS := { DKIN := dk, Stats := st, SFP := sp } } } =
              Except.ok st :=
            (hstc { d with
              Status := { DNS := { DKIN := dk, Stats := st, SFP := sp } } } d rfl).trans hcs
          have hp2 : env.checkSPF
              { d with Status := { DNS := { DKIN := dk, Stats := st, SFP := sp } } } =
              Except.ok sp :=
            (hspc { d with
              Status := { DNS := { DKIN := dk, Stats := st, SFP := sp } } } d rfl).trans hcp
          cases hsi : s.ingress with
          | none =>
            cases st <;>
              simp [Reconcile, reconcileTail, reconcileIngress, handleFoundIngress,
                getDomain, getIngress, checkDomainDNS, deleteIngress, createIngress,
                updateStatus, buildDesiredIngress, setControllerReference,
                statsIngressName, KErr.isNotFound, emptyTrace, hgd, hgi, hce, hde, hue, hor,
                hsd, hsi, hcd, hcs, hcp, hd2, hs2, hp2]
          | some ing =>
            cases st with
            | false =>
              cases hdt : ing.meta.DeletionTimestamp <;>
                simp [Reconcile, reconcileTail, reconcileIngress, handleFoundIngress,
                  getDomain, getIngress, checkDomainDNS, deleteIngress, createIngress,
                  updateStatus, buildDesiredIngress, setControllerReference,
                  statsIngressName, KErr.isNotFound, emptyTrace, hgd, hgi, hce, hde, hue, hor,
                  hsd, hsi, hcd, hcs, hcp, hd2, hs2, hp2, hdt]
            | true =>
              simp [Reconcile, reconcileTail, reconcileIngress, handleFoundIngress,
                getDomain, getIngress, checkDomainDNS, deleteIngress, createIngress,
                updateStatus, buildDesiredIngress, setControllerReference,
                statsIngressName, KErr.isNotFound, emptyTrace, hgd, hgi, hce, hde, hue, hor,
                hsd, hsi, hcd, hcs, hcp, hd2, hs2, hp2]

/-- Claim C4 witness: all probes true on a clean store; the second pass
mutates nothing. -/
theorem c4_idempotent_witness :
    (Reconcile (okEnv true true true)
      (Reconcile (okEnv true true true)
        { domain := some sampleDomain, ingress := none }).store).err = none ∧
    (Reconcile (okEnv true true true)
      (Reconcile (okEnv true true true)
        { domain := some sampleDomain, ingress := none }).store).trace.created = [] ∧
    (Reconcile (okEnv true true true)
      (Reconcile (okEnv true true true)
        { domain := some sampleDomain, ingress := none }).store).trace.deleted = [] ∧
    (Reconcile (okEnv true true true)
      (Reconcile (okEnv true true true)
        { domain := some sampleDomain, ingress := none }).store).store =
      (Reconcile (okEnv true true true)
        { domain := some sampleDomain, ingress := none }).store :=
  c4_idempotent (okEnv true true true)
    { domain := some sampleDomain, ingress := none }
    rfl rfl rfl rfl rfl rfl
    (fun _ _ _ => rfl) (fun _ _ _ => rfl) (fun _ _ _ => rfl) rfl

/-- Two environments with the same injected ingress-read result make the
same Ingress reads. -/
theorem getIngress_congr {env1 env2 : Env}
    (hgi : env1.getIngressErr = env2.getIngressErr) :
    ∀ s, getIngress env1 s = getIngress env2 s := by
  intro s
  unfold getIngress
  rw [hgi]

/-- Two environments with the same injected delete result make the same
deletes. -/
theorem deleteIngress_congr {env1 env2 : Env}
    (hde : env1.deleteErr = env2.deleteErr) :
    ∀ s, deleteIngress env1 s = deleteIngress env2 s := by
  intro s
  unfold deleteIngress
  rw [hde]

/-- Two environments with the same injected create result make the same
creates. -/
theorem createIngress_congr {env1 env2 : Env}
    (hce : env1.createErr = env2.createErr) :
    ∀ s ing, createIngress env1 s ing = createIngress env2 s ing := by
  intro s ing
  unfold createIngress
  rw [hce]

/-- Two environments with the same injected update result make the same
status updates. -/
theorem updateStatus_congr {env1 env2 : Env}
    (hue : env1.updateErr = env2.updateErr) :
    ∀ s d, updateStatus env1 s d = updateStatus env2 s d := by
  intro s d
  unfold updateStatus
  rw [hue]

/-- Two environments with the same owner-reference outcome build the same
desired Ingress. -/
theorem buildDesiredIngress_congr {env1 env2 : Env}
    (hor : env1.ownerRefErr = env2.ownerRefErr) :
    ∀ d, buildDesiredIngress env1 d = buildDesiredIngress env2 d := by
  intro d
  simp only [buildDesiredIngress, setControllerReference, hor]

/-- Lemma: `handleFoundIngress` is determined by the delete outcome. -/
theorem handleFoundIngress_congr {env1 env2 : Env}
    (hde : env1.deleteErr = env2.deleteErr) :
    ∀ s ing d, handleFoundIngress env1 s ing d = handleFoundIngress env2 s ing d := by
  intro s ing d
  simp only [handleFoundIngress, deleteIngress_congr hde]

/-- Lemma: `reconcileIngress` is determined by the store-operation outcomes. -/
theorem reconcileIngress_congr {env1 env2 : Env}
    (hgi : env1.getIngressErr = env2.getIngressErr)
    (hce : env1.createErr = env2.createErr)
    (hde : env1.deleteErr = env2.deleteErr)
    (hor : env1.ownerRefErr = env2.ownerRefErr) :
    ∀ s d, reconcileIngress env1 s d = reconcileIngress env2 s d := by
  intro s d
  simp only [reconcileIngress, getIngress_congr hgi,
    handleFoundIngress_congr hde, buildDesiredIngress_congr hor,
    createIngress_congr hce]

/-- The pass tail is determined by the store-operation outcomes. -/
theorem reconcileTail_congr {env1 env2 : Env}
    (hgi : env1.getIngressErr = env2.getIngressErr)
    (hce : env1.createErr = env2.createErr)
    (hde : env1.deleteErr = env2.deleteErr)
    (hue : env1.updateErr = env2.updateErr)
    (hor : env1.ownerRefErr = env2.ownerRefErr) :
    ∀ s d ps, reconcileTail env1 s d ps = reconcileTail env2 s d ps := by
  intro s d ps
  simp only [reconcileTail, reconcileIngress_congr hgi hce hde hor,
    updateStatus_congr hue]

/-- Claim C10: the pass is deterministic — two runs over the same Domain
in which every store operation and every probe call at that Domain
returns identical results produce identical outcomes (same persisted
status, same Ingress content, same requested delay, same error). -/
theorem c10_deterministic (env1 env2 : Env) (s : Store) (d : Domain)
    (hsd : s.domain = some d)
    (hgd : env1.getDomainErr = env2.getDomainErr)
    (hdk : env1.checkDKim d = env2.checkDKim d)
    (hst : env1.checkStatsDNS d = env2.checkStatsDNS d)
    (hsp : env1.checkSPF d = env2.checkSPF d)
    (hgi : env1.getIngressErr = env2.getIngressErr)
    (hce : env1.createErr = env2.createErr)
    (hde : env1.deleteErr = env2.deleteErr)
    (hue : env1.updateErr = env2.updateErr)
    (hor : env1.ownerRefErr = env2.ownerRefErr) :
    Reconcile env1 s = Reconcile env2 s := by
  have hdns : checkDomainDNS env1 d = checkDomainDNS env2 d := by
    unfold checkDomainDNS
    rw [hdk, hst, hsp]
  cases hg2 : env2.getDomainErr with
  | some e =>
    have hg1 : env1.getDomainErr = some e := hgd.trans hg2
    simp [Reconcile, getDomain, hg1, hg2]
  | none =>
    have hg1 : env1.getDomainErr = none := hgd.trans hg2
    have hdom1 : getDomain env1 s = Except.ok d := by
      simp [getDomain, hg1, hsd]
    have hdom2 : getDomain env2 s = Except.ok d := by
      simp [getDomain, hg2, hsd]
    simp only [Reconcile, hdom1, hdom2, hdns,
      reconcileTail_congr hgi hce hde hue hor]

/-- Claim C10 witness: two environments that differ as functions but
agree on every call made by the pass produce identical outcomes. -/
theorem c10_deterministic_witness :
    Reconcile (okEnv true true true)
        { domain := some sampleDomain, ingress := none } =
      Reconcile { okEnv true true true with
          checkSPF := fun x => Except.ok (x.Status.DNS.SFP || true) }
        { domain := some sampleDomain, ingress := none } :=
  c10_deterministic (okEnv true true true)
    { okEnv true true true with
      checkSPF := fun x => Except.ok (x.Status.DNS.SFP || true) }
    { domain := some sampleDomain, ingress := none } sampleDomain
    rfl rfl rfl rfl rfl rfl rfl rfl rfl rfl
